import Mathlib

/-!
Verification of doxytag2zealdb's extraction rules and entry sink.

A shallow embedding of the doxytag2zealdb pipeline:

* `doxytag.py` — the `TagProcessor` hierarchy: `get_name`, `get_entry_type`,
  `get_filename`, `match_criterion`, and the `functionTagProcessor` /
  `fileTagProcessor` overrides.
* `doxytag2zealdb/zealdb.py` — the `ZealDB` sink: `open`, `close`, `insert`
  (an sqlite table `searchIndex` with a unique index on (name, type, path),
  written through `INSERT OR IGNORE`).
* `doxytag2zealdb/doxytagfile.py` — the `TagfileProcessor` driver: the
  built-in rule registrations, `process`, `run_tag_processor`, `process_tag`
  and the running entry counts.

Modelling conventions:

* A BeautifulSoup tag is a `Tag`: its tag-name, its `kind` attribute (the
  only attribute the code consults, `none` when absent), its string contents
  (`text`) and its tag children (`children`).  In BeautifulSoup, `contents`
  is one interleaved list of strings and tags; the code reads `contents[0]`
  only on text-bearing leaf tags (`name`, `filename`, `anchorfile`,
  `anchor`, `arglist`, `type`), which the model renders as `text.head?`
  (`none` models the `IndexError` raised on an empty list).
* Python exceptions are `Except String α`: `.error` carries the exception
  name.  A Python method that falls off the end returns `None`, rendered as
  `.ok none` where the distinction matters (`get_filename`).
* `tag.findParent()` is an explicit `parent` argument: the driver hands each
  node to the extraction functions together with its structural parent,
  exactly as the pre-order soup traversal encounters it.
* `tag.findChild(n)` / attribute access `tag.n` are BeautifulSoup's
  *recursive* first match over the descendants in document (pre-order)
  order; `tag.find(n, recursive=False)` searches only the direct children.
* SQL NULL locators (a `get_filename` that returns `None` because a matched
  node has neither a `filename` nor an `anchorfile` child) are outside the
  model: the driver model turns them into an error, as the Doxygen tag-file
  schema guarantees those children for every matched node.
-/

/-- A node of the parsed tag file.  `kind` is the `kind` attribute (`none`
when the attribute is absent), `text` the string items of the BeautifulSoup
`contents`, `children` its tag children. -/
inductive Tag where
  | mk (name : String) (kind : Option String) (text : List String)
       (children : List Tag)

/-- The node's tag-name (`tag.name` in BeautifulSoup). -/
def Tag.name : Tag → String
  | .mk n _ _ _ => n

/-- The node's `kind` attribute: `tag.attrs.get('kind')` / `tag.get('kind')`,
`none` when missing. -/
def Tag.kind : Tag → Option String
  | .mk _ k _ _ => k

/-- The string items of the node's `contents`. -/
def Tag.text : Tag → List String
  | .mk _ _ tx _ => tx

/-- The node's tag children. -/
def Tag.children : Tag → List Tag
  | .mk _ _ _ cs => cs

/-- Pre-order (document-order) flattening of a forest, each node paired with
its structural parent; `p` is the parent of the roots of the forest.  This is
`soup.recursiveChildGenerator()` restricted to tags, with the parent that
`tag.findParent()` would report alongside each tag. -/
def descWithParent : Tag → List Tag → List (Tag × Tag)
  | _, [] => []
  | p, Tag.mk n k tx cs :: rest =>
    (p, Tag.mk n k tx cs) ::
      (descWithParent (Tag.mk n k tx cs) cs ++ descWithParent p rest)

/-- All descendants of a node paired with their structural parents, in
document order. -/
def Tag.descendantsWithParent (t : Tag) : List (Tag × Tag) :=
  descWithParent t t.children

/-- All descendants of a node in document order (the node itself excluded),
as BeautifulSoup's recursive search visits them. -/
def Tag.descendants (t : Tag) : List Tag :=
  (Tag.descendantsWithParent t).map Prod.snd

/-- `tag.findChild(nm)` and attribute access `tag.nm`: the first descendant
with tag-name `nm` in document order (BeautifulSoup's `findChild` is an alias
of `find`, which is recursive by default), `none` when there is none. -/
def Tag.findChild (t : Tag) (nm : String) : Option Tag :=
  t.descendants.find? (fun c => c.name == nm)

/-- `tag.find(nm, recursive=False)`: the first *direct* child with tag-name
`nm`. -/
def Tag.findDirect (t : Tag) (nm : String) : Option Tag :=
  t.children.find? (fun c => c.name == nm)

/-- Python's `x in [...]` applied to `tag.get('kind')`: a present kind that
occurs in the list; `None in [...]` is false for lists of strings. -/
def kindIn (k : Option String) (ks : List String) : Bool :=
  match k with
  | some s => ks.contains s
  | none => false

namespace TagProcessor

/-- `TagProcessor.get_name` (doxytag.py:80-104).  Reads the first `name`
descendant's leading text; when `include_parent_scopes` is set and the
structural parent's `kind` is class/struct/namespace, prefixes the parent's
own `name` text and `::`.  `.error` models the `AttributeError` (no `name`
descendant) or `IndexError` (empty contents) Python would raise. -/
def get_name (include_parent_scopes : Bool) (parent tag : Tag) :
    Except String String :=
  match Tag.findChild tag "name" with
  | none => .error "AttributeError"
  | some nameTag =>
    match nameTag.text.head? with
    | none => .error "IndexError"
    | some name =>
      if include_parent_scopes then
        if kindIn parent.kind ["class", "struct", "namespace"] then
          match Tag.findChild parent "name" with
          | none => .error "AttributeError"
          | some pn =>
            match pn.text.head? with
            | none => .error "IndexError"
            | some p => .ok (p ++ "::" ++ name)
        else .ok name
      else .ok name

/-- `TagProcessor.get_filename` (doxytag.py:120-136).  The guards test the
*direct* children (`recursive=False`) while the returned texts come from the
*recursive* attribute accesses `tag.filename` / `tag.anchorfile` /
`tag.anchor`, exactly as the Python does.  `.ok none` is Python falling off
the end and returning `None`. -/
def get_filename (tag : Tag) : Except String (Option String) :=
  if (Tag.findDirect tag "filename").isSome then
    match Tag.findChild tag "filename" with
    | none => .error "AttributeError"
    | some f =>
      match f.text.head? with
      | none => .error "IndexError"
      | some s => .ok (some s)
  else if (Tag.findDirect tag "anchorfile").isSome then
    match Tag.findChild tag "anchorfile" with
    | none => .error "AttributeError"
    | some af =>
      match af.text.head? with
      | none => .error "IndexError"
      | some afs =>
        match Tag.findChild tag "anchor" with
        | none => .error "AttributeError"
        | some an =>
          match an.text.head? with
          | none => .error "IndexError"
          | some ans => .ok (some (afs ++ "#" ++ ans))
  else .ok none

end TagProcessor

namespace TagProcessorWithEntryTypeAndFindByNamePlusKind

/-- `match_criterion` (doxytag.py:165-176): the tag-name equals the rule's
configured tag-name and the `kind` attribute, defaulted to the empty string
when absent (`tag.attrs.get('kind', '')`), equals the configured kind. -/
def match_criterion (reference_tag_name reference_tag_kind : String)
    (tag : Tag) : Bool :=
  tag.name == reference_tag_name &&
    (tag.kind.getD "") == reference_tag_kind

end TagProcessorWithEntryTypeAndFindByNamePlusKind

namespace functionTagProcessor

/-- `functionTagProcessor.get_name` (doxytag.py:295-322): the base name, and
when `include_function_signatures` is set, the `arglist` text appended with
no separator (only when the `arglist` child is present with non-empty
contents) and then `" -> "` plus the `type` text (only when the `type` child
is present with non-empty contents). -/
def get_name (include_parent_scopes include_function_signatures : Bool)
    (parent tag : Tag) : Except String String :=
  match TagProcessor.get_name include_parent_scopes parent tag with
  | .error e => .error e
  | .ok name =>
    if include_function_signatures then
      let n1 :=
        match Tag.findChild tag "arglist" with
        | some fa => if fa.text.isEmpty then name else name ++ fa.text.headD ""
        | none => name
      let n2 :=
        match Tag.findChild tag "type" with
        | some rt =>
          if rt.text.isEmpty then n1 else n1 ++ " -> " ++ rt.text.headD ""
        | none => n1
      .ok n2
    else .ok name

/-- `functionTagProcessor.get_entry_type` (doxytag.py:324-341): `"Method"`
when the structural parent's `kind` is class or struct, otherwise the
instance's stored `entry_type` (the inherited implementation returns
`self.entry_type`). -/
def get_entry_type (entry_type : String) (parent : Tag) : String :=
  if kindIn parent.kind ["class", "struct"] then "Method" else entry_type

end functionTagProcessor

namespace fileTagProcessor

/-- `fileTagProcessor.get_filename` (doxytag.py:250-263): the inherited
result with `'.html'` appended.  A `None` from the default implementation
makes Python's `None + '.html'` raise `TypeError`. -/
def get_filename (tag : Tag) : Except String (Option String) :=
  match TagProcessor.get_filename tag with
  | .ok (some s) => .ok (some (s ++ ".html"))
  | .ok none => .error "TypeError"
  | .error e => .error e

end fileTagProcessor

/-! ## The built-in rule registry (doxytagfile.py:74-88) -/

/-- The configuration a `TagProcessorWithEntryTypeAndFindByNamePlusKind`
instance stores: the tag-name and `kind` matching tags must have, and the
`entry_type` returned by the default `get_entry_type`. -/
structure RuleConfig where
  tag_name : String
  tag_kind : String
  entry_type : String
deriving DecidableEq, Repr

/-- `TagProcessorWithAutoEntryTypeAndFindByNamePlusAutoKind.__init__`
(doxytag.py:200-218): the kind is the class name with the `TagProcessor`
suffix removed, the entry type its capitalization.  (Python's
`str.capitalize` and Lean's `String.capitalize` agree on these all-lowercase
kind strings.) -/
def autoConfig (kind tagName : String) : RuleConfig :=
  ⟨tagName, kind, kind.capitalize⟩

/-- A registered tag processor: its stored configuration plus which concrete
class it is, for the two classes that override extraction methods
(`fileTagProcessor` overrides `get_filename`, `functionTagProcessor`
overrides `get_name` and `get_entry_type`). -/
structure Rule where
  cfg : RuleConfig
  is_file : Bool
  is_function : Bool
deriving DecidableEq, Repr

/-- The keyword arguments the CLI propagates to every TagProcessor
(doxytag2zealdb/doxytag2zealdb.py:70-80). -/
structure Opts where
  include_parent_scopes : Bool
  include_function_signatures : Bool
deriving DecidableEq, Repr

/-- `TagfileProcessor.init_tag_processors` (doxytagfile.py:74-88): the
eleven built-in registrations, keyed and ordered as in the source.  The
enumeration, enumvalue and typedef initializers overwrite the automatically
derived entry type with `Enum`, `Value` and `Type` (doxytag.py:349-377). -/
def builtinRules : List (String × Rule) :=
  [("class", ⟨autoConfig "class" "compound", false, false⟩),
   ("file", ⟨autoConfig "file" "compound", true, false⟩),
   ("namespace", ⟨autoConfig "namespace" "compound", false, false⟩),
   ("struct", ⟨autoConfig "struct" "compound", false, false⟩),
   ("union", ⟨autoConfig "union" "compound", false, false⟩),
   ("function", ⟨autoConfig "function" "member", false, true⟩),
   ("define", ⟨autoConfig "define" "member", false, false⟩),
   ("enumeration", ⟨{ autoConfig "enumeration" "member" with
                      entry_type := "Enum" }, false, false⟩),
   ("enumvalue", ⟨{ autoConfig "enumvalue" "member" with
                    entry_type := "Value" }, false, false⟩),
   ("typedef", ⟨{ autoConfig "typedef" "member" with
                  entry_type := "Type" }, false, false⟩),
   ("variable", ⟨autoConfig "variable" "member", false, false⟩)]

/-- Virtual dispatch of `get_name`: `functionTagProcessor` overrides it, all
other built-ins inherit the base implementation. -/
def ruleGetName (r : Rule) (o : Opts) (parent tag : Tag) :
    Except String String :=
  if r.is_function then
    functionTagProcessor.get_name o.include_parent_scopes
      o.include_function_signatures parent tag
  else
    TagProcessor.get_name o.include_parent_scopes parent tag

/-- Virtual dispatch of `get_entry_type`: `functionTagProcessor` overrides
it, all other built-ins return the stored `entry_type`. -/
def ruleGetEntryType (r : Rule) (parent : Tag) : String :=
  if r.is_function then
    functionTagProcessor.get_entry_type r.cfg.entry_type parent
  else r.cfg.entry_type

/-- Virtual dispatch of `get_filename`: `fileTagProcessor` overrides it, all
other built-ins inherit the base implementation. -/
def ruleGetFilename (r : Rule) (tag : Tag) : Except String (Option String) :=
  if r.is_file then fileTagProcessor.get_filename tag
  else TagProcessor.get_filename tag

/-! ## The ZealDB sink (zealdb.py) -/

/-- An output entry: (name, type, path) as stored in `searchIndex`. -/
abbrev Entry := String × String × String

/-- `INSERT OR IGNORE INTO searchIndex(name, type, path)` under the unique
index on (name, type, path) (zealdb.py:100,150-152): a row equal to an
existing one is silently ignored, anything else is appended. -/
def dbInsert (table : List Entry) (e : Entry) : List Entry :=
  if e ∈ table then table else table ++ [e]

/-- Inserting a whole batch in order. -/
def insertAll (es : List Entry) (table : List Entry) : List Entry :=
  es.foldl dbInsert table

/-- The observable state of a `ZealDB`: whether a connection (and hence a
cursor) is established — `open`/`close` always set `self.conn` and
`self.cursor` together — and the `searchIndex` table (`none` when the table
does not exist in the database file).  Since every `close` commits and every
`open` resets the table, the committed/uncommitted distinction is not
observable and the table is modelled as a single authoritative view. -/
structure ZealDBState where
  conn : Bool
  table : Option (List Entry)
deriving DecidableEq, Repr

namespace ZealDB

/-- `ZealDB.close` (zealdb.py:104-111): commit and close if a connection is
open; the cursor and connection are cleared either way. -/
def close (s : ZealDBState) : ZealDBState :=
  { s with conn := false }

/-- `ZealDB.open` (zealdb.py:75-102): close any open connection first
(committing), connect, drop `searchIndex` if it exists, then create it
fresh together with its unique index. -/
def «open» (s : ZealDBState) : ZealDBState :=
  let s1 := if s.conn then close s else s
  let s2 : ZealDBState := { s1 with conn := true }
  let s3 := if s2.table.isSome then { s2 with table := none } else s2
  { s3 with table := some [] }

/-- `ZealDB.insert` (zealdb.py:128-152): raises `RuntimeError` when no
cursor is established; otherwise `INSERT OR IGNORE` into `searchIndex`. -/
def insert (s : ZealDBState) (e : Entry) : Except String ZealDBState :=
  if s.conn = false then
    .error "RuntimeError: Open DB connection before attempting to call insert!"
  else
    match s.table with
    | none => .error "OperationalError: no such table: searchIndex"
    | some t => .ok { s with table := some (dbInsert t e) }

/-- The state a failed or successful `insert` call leaves behind: an
exception propagates with the store untouched. -/
def insertOutcome (s : ZealDBState) (e : Entry) : ZealDBState :=
  match insert s e with
  | .ok s1 => s1
  | .error _ => s

end ZealDB

/-! ## The TagfileProcessor driver (doxytagfile.py) -/

namespace TagfileProcessor

/-- The driver's mutable state: the sink it writes to and `entry_count`
(doxytagfile.py:69,150). -/
structure State where
  zdb : ZealDBState
  entry_count : Nat
deriving DecidableEq, Repr

/-- The (name, entry type, filename) triple `process_tag` builds
(doxytagfile.py:144-146), evaluated in Python's order: `get_name` first,
then `get_entry_type`, then `get_filename`.  A `None` filename (possible
only for nodes with neither `filename` nor `anchorfile` children, which the
tag-file schema rules out for matched nodes) would become SQL NULL and is
outside the model, rendered as an error. -/
def extractEntry (r : Rule) (o : Opts) (parent tag : Tag) :
    Except String Entry :=
  match ruleGetName r o parent tag with
  | .error e => .error e
  | .ok nm =>
    let et := ruleGetEntryType r parent
    match ruleGetFilename r tag with
    | .error e => .error e
    | .ok none => .error "NULL locator: node has no filename or anchorfile"
    | .ok (some fl) => .ok (nm, et, fl)

/-- `TagfileProcessor.process_tag` (doxytagfile.py:135-150): extract the
triple, insert it into the sink, then increment `entry_count` — the counter
advances for every processed tag, whether or not the sink ignored the row as
a duplicate. -/
def process_tag (r : Rule) (o : Opts) (parent tag : Tag) (s : State) :
    Except String State :=
  match extractEntry r o parent tag with
  | .error e => .error e
  | .ok e =>
    match ZealDB.insert s.zdb e with
    | .error m => .error m
    | .ok z => .ok ⟨z, s.entry_count + 1⟩

/-- The matches a rule's `find` generator yields (doxytag.py:64-78): every
descendant of the soup satisfying `match_criterion`, in document order,
paired with its structural parent. -/
def matchedTags (root : Tag) (r : Rule) : List (Tag × Tag) :=
  (Tag.descendantsWithParent root).filter
    (fun p => TagProcessorWithEntryTypeAndFindByNamePlusKind.match_criterion
      r.cfg.tag_name r.cfg.tag_kind p.2)

/-- `TagfileProcessor.run_tag_processor`'s loop body (doxytagfile.py:132-133)
over an explicit list of (parent, tag) matches. -/
def run_tags (r : Rule) (o : Opts) :
    List (Tag × Tag) → State → Except String State
  | [], s => .ok s
  | p :: ps, s =>
    match process_tag r o p.1 p.2 s with
    | .error e => .error e
    | .ok s1 => run_tags r o ps s1

/-- `TagfileProcessor.run_tag_processor` (doxytagfile.py:124-133). -/
def run_tag_processor (root : Tag) (r : Rule) (o : Opts) (s : State) :
    Except String State :=
  run_tags r o (matchedTags root r) s

/-- `TagfileProcessor.process` (doxytagfile.py:109-122) over an explicit
rule list: run every rule in order, recording per rule the difference
`after_count - before_count` it reports when verbose. -/
def process_rules (root : Tag) (o : Opts) :
    List (String × Rule) → State → Except String (State × List (String × Nat))
  | [], s => .ok (s, [])
  | (k, r) :: rs, s =>
    match run_tag_processor root r o s with
    | .error e => .error e
    | .ok s1 =>
      match process_rules root o rs s1 with
      | .error e => .error e
      | .ok (sf, cnts) =>
        .ok (sf, (k, s1.entry_count - s.entry_count) :: cnts)

/-- `TagfileProcessor.process` (doxytagfile.py:109-122) with the built-in
registrations: the final state, and the per-rule insertion counts it would
report when verbose. -/
def process (root : Tag) (o : Opts) (s : State) :
    Except String (State × List (String × Nat)) :=
  process_rules root o builtinRules s

end TagfileProcessor

/-! ## Factoring the driver through its pure extraction part -/

/-- The triples the driver extracts from a list of (parent, match) pairs, in
order: the pure part of `run_tag_processor`, separated from the sink. -/
def entriesOf (r : Rule) (o : Opts) :
    List (Tag × Tag) → Except String (List Entry)
  | [] => .ok []
  | p :: ps =>
    match TagfileProcessor.extractEntry r o p.1 p.2 with
    | .error e => .error e
    | .ok en =>
      match entriesOf r o ps with
      | .error e => .error e
      | .ok es => .ok (en :: es)

/-- The triples a whole `process` run forwards to the sink, rule by rule in
registration order. -/
def entriesOfRules (root : Tag) (o : Opts) :
    List (String × Rule) → Except String (List Entry)
  | [] => .ok []
  | (_, r) :: rs =>
    match entriesOf r o (TagfileProcessor.matchedTags root r) with
    | .error e => .error e
    | .ok es =>
      match entriesOfRules root o rs with
      | .error e => .error e
      | .ok es2 => .ok (es ++ es2)

/-! ## The signature parts of a function entry name -/

/-- What `functionTagProcessor.get_name` appends for the `arglist` child:
its leading text when the child is present with non-empty contents, nothing
otherwise.  It depends only on the node's own `arglist` lookup. -/
def argPartOf (tag : Tag) : String :=
  match Tag.findChild tag "arglist" with
  | some fa => if fa.text.isEmpty then "" else fa.text.headD ""
  | none => ""

/-- What `functionTagProcessor.get_name` appends for the `type` child:
`" -> "` plus its leading text when the child is present with non-empty
contents, nothing otherwise. -/
def typePartOf (tag : Tag) : String :=
  match Tag.findChild tag "type" with
  | some rt => if rt.text.isEmpty then "" else " -> " ++ rt.text.headD ""
  | none => ""

/-! ## Concrete documents used as witnesses and counterexamples -/

/-- A class compound `Foo` with one member `bar`, used to instantiate the
scope-qualification claim. -/
def fooClass : Tag :=
  Tag.mk "compound" (some "class") []
    [Tag.mk "name" none ["Foo"] [],
     Tag.mk "filename" none ["classFoo.html"] [],
     Tag.mk "member" (some "function") []
       [Tag.mk "type" none ["void"] [],
        Tag.mk "name" none ["bar"] [],
        Tag.mk "anchorfile" none ["classFoo.html"] [],
        Tag.mk "anchor" none ["a0"] [],
        Tag.mk "arglist" none ["(int x)"] []]]

/-- The function member of `fooClass`. -/
def barMember : Tag :=
  Tag.mk "member" (some "function") []
    [Tag.mk "type" none ["void"] [],
     Tag.mk "name" none ["bar"] [],
     Tag.mk "anchorfile" none ["classFoo.html"] [],
     Tag.mk "anchor" none ["a0"] [],
     Tag.mk "arglist" none ["(int x)"] []]

/-- A node on which the guard of `get_filename` (a *direct* `filename`
child, text `"direct"`) and the value it returns (the *first* `filename`
descendant in document order, text `"nested"`) disagree. -/
def mixedFilenameNode : Tag :=
  Tag.mk "compound" (some "file") []
    [Tag.mk "member" (some "define") []
       [Tag.mk "filename" none ["nested"] []],
     Tag.mk "filename" none ["direct"] []]

/-- A file compound with raw filename text `classFoo`, for the file rule. -/
def fileCompound : Tag :=
  Tag.mk "compound" (some "file") []
    [Tag.mk "name" none ["foo.h"] [],
     Tag.mk "filename" none ["classFoo"] []]

/-- A member with an `anchorfile` child but no `anchor` child anywhere. -/
def anchorlessMember : Tag :=
  Tag.mk "member" (some "variable") []
    [Tag.mk "name" none ["x"] [],
     Tag.mk "anchorfile" none ["f.html"] []]

/-- The spec's end-to-end example: a class `Widget` with a variable member
`count`. -/
def widgetDoc : Tag :=
  Tag.mk "[document]" none []
    [Tag.mk "compound" (some "class") []
      [Tag.mk "name" none ["Widget"] [],
       Tag.mk "filename" none ["classWidget.html"] [],
       Tag.mk "member" (some "variable") []
         [Tag.mk "name" none ["count"] [],
          Tag.mk "anchorfile" none ["classWidget.html"] [],
          Tag.mk "anchor" none ["a1"] []]]]

/-- A document whose class compound contains two identical variable members:
both are processed, the sink stores one row. -/
def dupDoc : Tag :=
  Tag.mk "[document]" none []
    [Tag.mk "compound" (some "class") []
      [Tag.mk "name" none ["Foo"] [],
       Tag.mk "filename" none ["classFoo.html"] [],
       Tag.mk "member" (some "variable") []
         [Tag.mk "name" none ["bar"] [],
          Tag.mk "anchorfile" none ["classFoo.html"] [],
          Tag.mk "anchor" none ["a0"] []],
       Tag.mk "member" (some "variable") []
         [Tag.mk "name" none ["bar"] [],
          Tag.mk "anchorfile" none ["classFoo.html"] [],
          Tag.mk "anchor" none ["a0"] []]]]

/-- The two entries the spec's end-to-end example stores. -/
def widgetEntries : List Entry :=
  [("Widget", "Class", "classWidget.html"),
   ("Widget::count", "Variable", "classWidget.html#a1")]

/-- The stored entries of the duplicate-member document. -/
def dupEntries : List Entry :=
  [("Foo", "Class", "classFoo.html"),
   ("bar", "Variable", "classFoo.html#a0")]

/-- The per-rule counts `process` reports for `dupDoc`. -/
def dupCounts : List (String × Nat) :=
  [("class", 1), ("file", 0), ("namespace", 0), ("struct", 0), ("union", 0),
   ("function", 0), ("define", 0), ("enumeration", 0), ("enumvalue", 0),
   ("typedef", 0), ("variable", 2)]

/-- The total number of (rule, node) matches `process` handles for a
document: what the driver's counters actually measure. -/
def totalMatched (root : Tag) : Nat :=
  (builtinRules.map
    (fun kr => (TagfileProcessor.matchedTags root kr.2).length)).sum

/-! ## Lemmas about the sink's insert semantics -/

theorem dbInsert_of_mem {t : List Entry} {e : Entry} (h : e ∈ t) :
    dbInsert t e = t := by
  simp [dbInsert, h]

theorem mem_dbInsert_of_mem {t : List Entry} {e : Entry} (h : e ∈ t)
    (e' : Entry) : e ∈ dbInsert t e' := by
  unfold dbInsert
  split
  · exact h
  · exact List.mem_append_left _ h

theorem mem_dbInsert_self (t : List Entry) (e : Entry) : e ∈ dbInsert t e := by
  unfold dbInsert
  split
  · assumption
  · exact List.mem_append_right _ (List.mem_singleton.mpr rfl)

theorem length_dbInsert (t : List Entry) (e : Entry) :
    (dbInsert t e).length ≤ t.length + 1 := by
  unfold dbInsert
  split
  · omega
  · simp

theorem nodup_dbInsert {t : List Entry} (h : t.Nodup) (e : Entry) :
    (dbInsert t e).Nodup := by
  unfold dbInsert
  split
  · exact h
  · rename_i he
    simp [List.nodup_append, h, List.disjoint_singleton, he]

theorem mem_insertAll_of_mem {t : List Entry} {e : Entry} (h : e ∈ t) :
    ∀ es : List Entry, e ∈ insertAll es t := by
  intro es
  induction es generalizing t with
  | nil => exact h
  | cons a as ih => exact ih (mem_dbInsert_of_mem h a)

theorem mem_insertAll {es : List Entry} {e : Entry} (h : e ∈ es)
    (t : List Entry) : e ∈ insertAll es t := by
  induction es generalizing t with
  | nil => cases h
  | cons a as ih =>
    rcases List.mem_cons.mp h with rfl | h2
    · exact mem_insertAll_of_mem (mem_dbInsert_self t e) as
    · exact ih h2 (dbInsert t a)

theorem insertAll_of_subset {es t : List Entry} (h : ∀ e ∈ es, e ∈ t) :
    insertAll es t = t := by
  induction es with
  | nil => rfl
  | cons a as ih =>
    show insertAll as (dbInsert t a) = t
    rw [dbInsert_of_mem (h a (List.mem_cons_self a as))]
    exact ih (fun e he => h e (List.mem_cons_of_mem a he))

theorem insertAll_append (es1 es2 t : List Entry) :
    insertAll (es1 ++ es2) t = insertAll es2 (insertAll es1 t) :=
  List.foldl_append dbInsert t es1 es2

theorem insertAll_idem (es t : List Entry) :
    insertAll es (insertAll es t) = insertAll es t :=
  insertAll_of_subset (fun _ he => mem_insertAll he t)

theorem nodup_insertAll (es : List Entry) {t : List Entry} (h : t.Nodup) :
    (insertAll es t).Nodup := by
  induction es generalizing t with
  | nil => exact h
  | cons a as ih => exact ih (nodup_dbInsert h a)

theorem length_insertAll (es t : List Entry) :
    (insertAll es t).length ≤ t.length + es.length := by
  induction es generalizing t with
  | nil => simp [insertAll]
  | cons a as ih =>
    have h1 := ih (dbInsert t a)
    have h2 := length_dbInsert t a
    show (insertAll as (dbInsert t a)).length ≤ t.length + (as.length + 1)
    omega

theorem entriesOf_length (r : Rule) (o : Opts) :
    ∀ (ps : List (Tag × Tag)) (es : List Entry),
      entriesOf r o ps = .ok es → es.length = ps.length := by
  intro ps
  induction ps with
  | nil =>
    intro es h
    simp [entriesOf] at h
    simp [← h]
  | cons p ps ih =>
    intro es h
    unfold entriesOf at h
    cases hE : TagfileProcessor.extractEntry r o p.1 p.2 with
    | error e => rw [hE] at h; exact absurd h (by simp)
    | ok en =>
      rw [hE] at h
      cases hR : entriesOf r o ps with
      | error e => rw [hR] at h; exact absurd h (by simp)
      | ok es2 =>
        rw [hR] at h
        cases h
        simp [ih es2 hR]

/-- A successful `run_tags` from an open sink holding table `t` is exactly:
extract the triples, fold them into the table, and advance `entry_count` by
the number of processed tags. -/
theorem run_tags_ok (r : Rule) (o : Opts) :
    ∀ (ps : List (Tag × Tag)) (t : List Entry) (n : Nat)
      (s' : TagfileProcessor.State),
      TagfileProcessor.run_tags r o ps ⟨⟨true, some t⟩, n⟩ = .ok s' →
      ∃ es, entriesOf r o ps = .ok es ∧
        s' = ⟨⟨true, some (insertAll es t)⟩, n + ps.length⟩ := by
  intro ps
  induction ps with
  | nil =>
    intro t n s' h
    simp [TagfileProcessor.run_tags] at h
    exact ⟨[], rfl, h.symm⟩
  | cons p ps ih =>
    intro t n s' h
    unfold TagfileProcessor.run_tags TagfileProcessor.process_tag at h
    cases hE : TagfileProcessor.extractEntry r o p.1 p.2 with
    | error e => rw [hE] at h; exact absurd h (by simp)
    | ok en =>
      rw [hE] at h
      simp only [ZealDB.insert] at h
      simp at h
      obtain ⟨es, hes, hs⟩ := ih (dbInsert t en) (n + 1) s' h
      refine ⟨en :: es, ?_, ?_⟩
      · simp [entriesOf, hE, hes]
      · rw [hs]
        have harith : n + 1 + ps.length = n + (ps.length + 1) := by omega
        rw [harith]
        rfl

/-- A successful `process_rules` from an open sink is exactly: extract all
rules' triples, fold them into the table, advance `entry_count` by the total
number of matches, and report per rule the number of its matches. -/
theorem process_rules_ok (root : Tag) (o : Opts) :
    ∀ (rs : List (String × Rule)) (t : List Entry) (n : Nat)
      (s' : TagfileProcessor.State) (cnts : List (String × Nat)),
      TagfileProcessor.process_rules root o rs ⟨⟨true, some t⟩, n⟩ =
        .ok (s', cnts) →
      ∃ es, entriesOfRules root o rs = .ok es ∧
        s' = ⟨⟨true, some (insertAll es t)⟩, n + es.length⟩ ∧
        cnts = rs.map
          (fun kr => (kr.1, (TagfileProcessor.matchedTags root kr.2).length)) := by
  intro rs
  induction rs with
  | nil =>
    intro t n s' cnts h
    simp [TagfileProcessor.process_rules] at h
    exact ⟨[], rfl, by simp [insertAll, h.1.symm], by simp [h.2.symm]⟩
  | cons kr rs ih =>
    intro t n s' cnts h
    obtain ⟨k, r⟩ := kr
    unfold TagfileProcessor.process_rules TagfileProcessor.run_tag_processor at h
    cases hRun : TagfileProcessor.run_tags r o
        (TagfileProcessor.matchedTags root r) ⟨⟨true, some t⟩, n⟩ with
    | error e => rw [hRun] at h; exact absurd h (by simp)
    | ok s1 =>
      rw [hRun] at h
      obtain ⟨es1, hes1, hs1⟩ :=
        run_tags_ok r o (TagfileProcessor.matchedTags root r) t n s1 hRun
      subst hs1
      simp only [] at h
      cases hRest : TagfileProcessor.process_rules root o rs
          ⟨⟨true, some (insertAll es1 t)⟩,
            n + (TagfileProcessor.matchedTags root r).length⟩ with
      | error e => rw [hRest] at h; exact absurd h (by simp)
      | ok pr =>
        obtain ⟨sf, cnts2⟩ := pr
        rw [hRest] at h
        obtain ⟨es2, hes2, hsf, hcnts2⟩ :=
          ih (insertAll es1 t)
            (n + (TagfileProcessor.matchedTags root r).length) sf cnts2 hRest
        cases h
        refine ⟨es1 ++ es2, ?_, ?_, ?_⟩
        · simp [entriesOfRules, hes1, hes2]
        · rw [hsf]
          have hlen := entriesOf_length r o _ es1 hes1
          have harith :
              n + (TagfileProcessor.matchedTags root r).length + es2.length =
                n + (es1 ++ es2).length := by
            simp [List.length_append, hlen]
            omega
          rw [harith, insertAll_append]
        · have hlen := entriesOf_length r o _ es1 hes1
          simp [hcnts2, Nat.add_sub_cancel_left, hlen]

/-! ## Lemmas about the tree lookups -/

theorem mem_descWithParent (p : Tag) (cs : List Tag) {c : Tag} (h : c ∈ cs) :
    (p, c) ∈ descWithParent p cs := by
  induction cs with
  | nil => cases h
  | cons x rest ih =>
    cases x with
    | mk n k tx cc =>
      rcases List.mem_cons.mp h with rfl | h2
      · simp [descWithParent]
      · simp only [descWithParent, List.mem_cons, List.mem_append]
        exact Or.inr (Or.inr (ih h2))

/-- A direct child with the sought tag-name guarantees that the recursive
lookup finds one too (possibly a different, earlier descendant). -/
theorem findChild_isSome_of_findDirect {t : Tag} {nm : String} {c : Tag}
    (h : Tag.findDirect t nm = some c) :
    (Tag.findChild t nm).isSome = true := by
  unfold Tag.findDirect at h
  have hname : (c.name == nm) = true := by
    have h2 := List.find?_some h
    simpa using h2
  have hmem : c ∈ t.children := List.mem_of_find?_eq_some h
  have hdesc : c ∈ t.descendants := by
    unfold Tag.descendants Tag.descendantsWithParent
    exact List.mem_map_of_mem Prod.snd (mem_descWithParent t t.children hmem)
  unfold Tag.findChild
  exact List.find?_isSome.mpr ⟨c, hdesc, hname⟩

theorem kindIn_iff (k : Option String) (ks : List String) :
    kindIn k ks = true ↔ ∃ s, k = some s ∧ s ∈ ks := by
  cases k <;> simp [kindIn]

theorem match_criterion_eq_false_of_kind_ne {nm k : String} {tag : Tag}
    (hk : tag.kind.getD "" ≠ k) :
    TagProcessorWithEntryTypeAndFindByNamePlusKind.match_criterion
      nm k tag = false := by
  simp [TagProcessorWithEntryTypeAndFindByNamePlusKind.match_criterion, hk]

/-! ## The claims -/

/-- C1: for a member node whose structural parent has a `kind` among
class/struct/namespace and whose `name` lookup yields text `P`, and whose
own `name` lookup yields text `B`, `get_name` returns `P ++ "::" ++ B` when
`include_parent_scopes` is enabled and `B` when it is disabled. -/
theorem c1_scope_qualification (parent tag pn nt : Tag) (P B : String)
    (hk : kindIn parent.kind ["class", "struct", "namespace"] = true)
    (hpn : Tag.findChild parent "name" = some pn)
    (hP : pn.text.head? = some P)
    (hnt : Tag.findChild tag "name" = some nt)
    (hB : nt.text.head? = some B) :
    TagProcessor.get_name true parent tag = .ok (P ++ "::" ++ B) ∧
    TagProcessor.get_name false parent tag = .ok B := by
  constructor <;> simp [TagProcessor.get_name, hk, hpn, hP, hnt, hB]

/-- Witness for C1: class `Foo`, member `bar`. -/
theorem c1_scope_qualification_witness :
    TagProcessor.get_name true fooClass barMember = .ok ("Foo" ++ "::" ++ "bar") ∧
    TagProcessor.get_name false fooClass barMember = .ok "bar" :=
  c1_scope_qualification fooClass barMember
    (Tag.mk "name" none ["Foo"] []) (Tag.mk "name" none ["bar"] [])
    "Foo" "bar" rfl rfl rfl rfl rfl

/-- C2: the function rule's `get_entry_type` returns `"Method"` exactly when
the structural parent's `kind` attribute is `"class"` or `"struct"`, and
returns the stored default label `"Function"` for every other parent kind
(including a missing kind). -/
theorem c2_function_method_override (parent : Tag) :
    (functionTagProcessor.get_entry_type
        (autoConfig "function" "member").entry_type parent = "Method" ↔
      parent.kind = some "class" ∨ parent.kind = some "struct") ∧
    (parent.kind = some "class" ∨ parent.kind = some "struct" ∨
      functionTagProcessor.get_entry_type
        (autoConfig "function" "member").entry_type parent = "Function") := by
  unfold functionTagProcessor.get_entry_type
  rcases hk : parent.kind with _ | s
  · refine ⟨by simp [kindIn]; decide, Or.inr (Or.inr ?_)⟩
    simp [kindIn]
    decide
  · by_cases hs : s = "class" ∨ s = "struct"
    · rcases hs with rfl | rfl <;> exact ⟨by decide, by decide⟩
    · push_neg at hs
      have ht : kindIn (some s) ["class", "struct"] = false := by
        simp [kindIn, hs.1, hs.2]
      rw [ht]
      refine ⟨?_, Or.inr (Or.inr ?_)⟩
      · simp only [Bool.false_eq_true, if_false, Option.some.injEq]
        constructor
        · intro h
          exact absurd h (by decide)
        · rintro (rfl | rfl)
          · exact absurd rfl hs.1
          · exact absurd rfl hs.2
      · simp only [Bool.false_eq_true, if_false]
        decide

/-- C3: with `include_function_signatures` enabled, the function rule's
`get_name` is the base name followed by the arglist part and the type part,
where each part is present exactly when the node's *own* `arglist` / `type`
lookup yields a child with non-empty contents (`argPartOf` / `typePartOf`
depend only on the node), and a missing or empty child just omits that part
— the result is still `.ok`, never an exception. -/
theorem c3_signature_inclusion (ips : Bool) (parent tag : Tag) (base : String)
    (h : TagProcessor.get_name ips parent tag = .ok base) :
    functionTagProcessor.get_name ips true parent tag =
      .ok (base ++ argPartOf tag ++ typePartOf tag) := by
  unfold functionTagProcessor.get_name
  rw [h]
  simp only [if_true]
  unfold argPartOf typePartOf
  rcases hfa : Tag.findChild tag "arglist" with _ | fa <;>
    rcases hrt : Tag.findChild tag "type" with _ | rt <;>
      simp only [hfa, hrt] <;> (try split_ifs) <;>
        simp [String.append_empty, String.append_assoc]

/-- Witness for C3: member `bar` with arglist `(int x)` and type `void`. -/
theorem c3_signature_inclusion_witness :
    functionTagProcessor.get_name false true fooClass barMember =
      .ok ("bar" ++ argPartOf barMember ++ typePartOf barMember) :=
  c3_signature_inclusion false fooClass barMember "bar" rfl

/-- Counterexample for C4: `mixedFilenameNode` has a direct `filename` child
with text `"direct"`, yet `get_filename` returns `"nested"`, the text of an
earlier, non-direct `filename` descendant: the guard tests the direct
children but the returned value comes from the recursive lookup. -/
theorem c4_counterexample :
    TagProcessor.get_filename mixedFilenameNode = .ok (some "nested") ∧
    (Tag.findDirect mixedFilenameNode "filename").map Tag.text =
      some ["direct"] ∧
    "nested" ≠ "direct" :=
  ⟨rfl, rfl, by decide⟩

/-- C4 as amended: when a *direct* `filename` child is present the default
`get_filename` returns the text of the *first `filename` descendant in
document order* (which is the direct child's text whenever no earlier
descendant carries that tag-name); else, when a direct `anchorfile` child is
present, it returns first-anchorfile-descendant text, `#`, and
first-anchor-descendant text; and the file rule appends `.html` to the
default result exactly once. -/
theorem c4_locator_extraction (t1 t2 t3 f af an : Tag) (s a b c : String)
    (h1 : (Tag.findDirect t1 "filename").isSome = true)
    (h2 : Tag.findChild t1 "filename" = some f)
    (h3 : f.text.head? = some s)
    (h4 : Tag.findDirect t2 "filename" = none)
    (h5 : (Tag.findDirect t2 "anchorfile").isSome = true)
    (h6 : Tag.findChild t2 "anchorfile" = some af)
    (h7 : af.text.head? = some a)
    (h8 : Tag.findChild t2 "anchor" = some an)
    (h9 : an.text.head? = some b)
    (h10 : TagProcessor.get_filename t3 = .ok (some c)) :
    TagProcessor.get_filename t1 = .ok (some s) ∧
    TagProcessor.get_filename t2 = .ok (some (a ++ "#" ++ b)) ∧
    fileTagProcessor.get_filename t3 = .ok (some (c ++ ".html")) := by
  refine ⟨?_, ?_, ?_⟩
  · simp [TagProcessor.get_filename, h1, h2, h3]
  · simp [TagProcessor.get_filename, h4, h5, h6, h7, h8, h9]
  · simp [fileTagProcessor.get_filename, h10]

/-- Witness for C4's amended statement: the mixed node, the `bar` member,
and a file compound with raw filename `classFoo`. -/
theorem c4_locator_extraction_witness :
    TagProcessor.get_filename mixedFilenameNode = .ok (some "nested") ∧
    TagProcessor.get_filename barMember =
      .ok (some ("classFoo.html" ++ "#" ++ "a0")) ∧
    fileTagProcessor.get_filename fileCompound =
      .ok (some ("classFoo" ++ ".html")) :=
  c4_locator_extraction mixedFilenameNode barMember fileCompound
    (Tag.mk "filename" none ["nested"] [])
    (Tag.mk "anchorfile" none ["classFoo.html"] [])
    (Tag.mk "anchor" none ["a0"] [])
    "nested" "classFoo.html" "a0" "classFoo"
    rfl rfl rfl rfl rfl rfl rfl rfl rfl rfl

/-- C5: for every built-in rule, the default `match_criterion` is true
exactly when the node's tag-name equals the rule's configured tag-name and
the node's `kind` attribute, read as the empty string when missing, equals
the rule's configured kind; in particular a node with no `kind` attribute
never matches any built-in rule (whose configured kinds are all
non-empty). -/
theorem c5_match_criterion (kr : String × Rule) (tag : Tag)
    (hmem : kr ∈ builtinRules) :
    (TagProcessorWithEntryTypeAndFindByNamePlusKind.match_criterion
        kr.2.cfg.tag_name kr.2.cfg.tag_kind tag = true ↔
      tag.name = kr.2.cfg.tag_name ∧ tag.kind.getD "" = kr.2.cfg.tag_kind) ∧
    (tag.kind = none →
      TagProcessorWithEntryTypeAndFindByNamePlusKind.match_criterion
        kr.2.cfg.tag_name kr.2.cfg.tag_kind tag = false) := by
  constructor
  · simp [TagProcessorWithEntryTypeAndFindByNamePlusKind.match_criterion]
  · intro hnone
    refine match_criterion_eq_false_of_kind_ne ?_
    rw [hnone]
    fin_cases hmem <;> decide

/-- Witness for C5: the variable rule against a kind-less `member` node. -/
theorem c5_match_criterion_witness :
    (TagProcessorWithEntryTypeAndFindByNamePlusKind.match_criterion
        "member" "variable" (Tag.mk "member" none [] []) = true ↔
      (Tag.mk "member" none [] []).name = "member" ∧
        (Tag.mk "member" none [] []).kind.getD "" = "variable") ∧
    ((Tag.mk "member" none [] []).kind = none →
      TagProcessorWithEntryTypeAndFindByNamePlusKind.match_criterion
        "member" "variable" (Tag.mk "member" none [] []) = false) :=
  c5_match_criterion ("variable", ⟨autoConfig "variable" "member",
    false, false⟩) (Tag.mk "member" none [] []) (by decide)

/-- C6: a duplicate insert into an open sink is accepted and is a no-op (the
triple stays unique), and a second full `process` run over the same input
continuing on the same sink leaves the stored entry set unchanged, which is
duplicate-free. -/
theorem c6_process_idempotent (root : Tag) (o : Opts)
    (s1 s2 : TagfileProcessor.State) (c1 c2 : List (String × Nat))
    (db1 st : List Entry) (e : Entry)
    (h1 : TagfileProcessor.process root o ⟨⟨true, some []⟩, 0⟩ = .ok (s1, c1))
    (h2 : TagfileProcessor.process root o s1 = .ok (s2, c2))
    (hdb : s1.zdb.table = some db1)
    (he : e ∈ st) :
    ZealDB.insert ⟨true, some st⟩ e = .ok ⟨true, some st⟩ ∧
    s2.zdb.table = s1.zdb.table ∧
    db1.Nodup := by
  obtain ⟨es, hes, hs1, -⟩ :=
    process_rules_ok root o builtinRules [] 0 s1 c1 h1
  rw [hs1] at h2 hdb
  simp only at hdb
  cases hdb
  obtain ⟨es2, hes2, hs2, -⟩ :=
    process_rules_ok root o builtinRules (insertAll es []) (0 + es.length)
      s2 c2 h2
  have hsame : es2 = es := by
    rw [hes] at hes2
    exact (Except.ok.injEq _ _).mp hes2.symm ▸ rfl
  refine ⟨?_, ?_, ?_⟩
  · simp [ZealDB.insert, dbInsert_of_mem he]
  · rw [hs1, hs2, hsame, insertAll_idem]
  · exact nodup_insertAll es List.nodup_nil

/-- Witness for C6: processing `widgetDoc` twice into the same
freshly-opened sink leaves the same two stored entries. -/
theorem c6_process_idempotent_witness :
    ZealDB.insert ⟨true, some [("a", "b", "c")]⟩ ("a", "b", "c") =
      .ok ⟨true, some [("a", "b", "c")]⟩ ∧
    (⟨⟨true, some widgetEntries⟩, 4⟩ : TagfileProcessor.State).zdb.table =
      (⟨⟨true, some widgetEntries⟩, 2⟩ : TagfileProcessor.State).zdb.table ∧
    widgetEntries.Nodup :=
  c6_process_idempotent widgetDoc ⟨true, false⟩
    ⟨⟨true, some widgetEntries⟩, 2⟩ ⟨⟨true, some widgetEntries⟩, 4⟩
    [("class", 1), ("file", 0), ("namespace", 0), ("struct", 0),
     ("union", 0), ("function", 0), ("define", 0), ("enumeration", 0),
     ("enumvalue", 0), ("typedef", 0), ("variable", 1)]
    [("class", 1), ("file", 0), ("namespace", 0), ("struct", 0),
     ("union", 0), ("function", 0), ("define", 0), ("enumeration", 0),
     ("enumvalue", 0), ("typedef", 0), ("variable", 1)]
    widgetEntries [("a", "b", "c")] ("a", "b", "c")
    rfl rfl rfl (by decide)

/-- C7: `open` is a destructive reset: whatever the prior state (connection
open or not, table present, absent or populated), afterwards the connection
is open and the `searchIndex` table exists and is empty, so no entry of a
prior run survives; re-running `open` is permitted and gives the same fresh
state, and a preceding `close` does not change what `open` produces. -/
theorem c7_open_resets (s : ZealDBState) :
    ZealDB.«open» s = ⟨true, some []⟩ ∧
    ZealDB.«open» (ZealDB.«open» s) = ZealDB.«open» s ∧
    ZealDB.«open» (ZealDB.close s) = ZealDB.«open» s := by
  obtain ⟨c, t⟩ := s
  cases c <;> cases t <;> exact ⟨rfl, rfl, rfl⟩

/-- C8: `insert` on a sink with no established connection — before any
`open`, or after `close` — raises `RuntimeError` and leaves the store's
contents unchanged. -/
theorem c8_insert_before_open_raises (s s2 : ZealDBState) (e : Entry)
    (h : s.conn = false) :
    ZealDB.insert s e =
      .error
        "RuntimeError: Open DB connection before attempting to call insert!" ∧
    ZealDB.insertOutcome s e = s ∧
    ZealDB.insert (ZealDB.close s2) e =
      .error
        "RuntimeError: Open DB connection before attempting to call insert!" := by
  refine ⟨?_, ?_, ?_⟩
  · simp [ZealDB.insert, h]
  · simp [ZealDB.insertOutcome, ZealDB.insert, h]
  · simp [ZealDB.insert, ZealDB.close]

/-- Witness for C8: a never-opened sink and a closed sink. -/
theorem c8_insert_before_open_raises_witness :
    ZealDB.insert ⟨false, none⟩ ("n", "t", "p") =
      .error
        "RuntimeError: Open DB connection before attempting to call insert!" ∧
    ZealDB.insertOutcome ⟨false, none⟩ ("n", "t", "p") = ⟨false, none⟩ ∧
    ZealDB.insert (ZealDB.close ⟨true, some []⟩) ("n", "t", "p") =
      .error
        "RuntimeError: Open DB connection before attempting to call insert!" :=
  c8_insert_before_open_raises ⟨false, none⟩ ⟨true, some []⟩ ("n", "t", "p") rfl

theorem entriesOfRules_length (root : Tag) (o : Opts) :
    ∀ (rs : List (String × Rule)) (es : List Entry),
      entriesOfRules root o rs = .ok es →
      es.length = (rs.map
        (fun kr => (TagfileProcessor.matchedTags root kr.2).length)).sum := by
  intro rs
  induction rs with
  | nil =>
    intro es h
    simp [entriesOfRules] at h
    simp [← h]
  | cons kr rs ih =>
    intro es h
    obtain ⟨k, r⟩ := kr
    unfold entriesOfRules at h
    cases hE : entriesOf r o (TagfileProcessor.matchedTags root r) with
    | error e => rw [hE] at h; exact absurd h (by simp)
    | ok es1 =>
      rw [hE] at h
      cases hR : entriesOfRules root o rs with
      | error e => rw [hR] at h; exact absurd h (by simp)
      | ok es2 =>
        rw [hR] at h
        cases h
        simp [entriesOf_length r o _ es1 hE, ih es2 hR]

/-- Counterexample for C9: processing `dupDoc` (one class, two identical
variable members) forwards three triples; the sink stores only two rows, and
the `variable` rule's reported count is 2 while only one `Variable` row was
actually inserted.  The driver's counters count processed tags, not rows the
sink accepted. -/
theorem c9_counterexample :
    TagfileProcessor.process dupDoc ⟨false, false⟩ ⟨⟨true, some []⟩, 0⟩ =
      .ok (⟨⟨true, some dupEntries⟩, 3⟩, dupCounts) ∧
    dupEntries.length = 2 ∧
    ("variable", 2) ∈ dupCounts ∧
    (dupEntries.filter (fun e => e.2.1 == "Variable")).length = 1 ∧
    (3 : Nat) ≠ 2 ∧ (2 : Nat) ≠ 1 :=
  ⟨rfl, rfl, by decide, rfl, by decide, by decide⟩

/-- C9 as amended: after a successful `process` on a freshly-opened sink the
overall `entry_count` equals the total number of matching nodes processed
(triples forwarded to the sink) and the per-rule report equals each rule's
match count; the number of rows actually stored is at most that, with
equality only when no forwarded triple was a duplicate. -/
theorem c9_counts_forwarded (root : Tag) (o : Opts)
    (s : TagfileProcessor.State) (cnts : List (String × Nat))
    (db : List Entry)
    (h : TagfileProcessor.process root o ⟨⟨true, some []⟩, 0⟩ = .ok (s, cnts))
    (hdb : s.zdb.table = some db) :
    s.entry_count = totalMatched root ∧
    cnts = builtinRules.map
      (fun kr => (kr.1, (TagfileProcessor.matchedTags root kr.2).length)) ∧
    db.length ≤ s.entry_count := by
  obtain ⟨es, hes, hs, hcnts⟩ :=
    process_rules_ok root o builtinRules [] 0 s cnts h
  rw [hs] at hdb
  simp only at hdb
  cases hdb
  have hlen := entriesOfRules_length root o builtinRules es hes
  refine ⟨?_, hcnts, ?_⟩
  · rw [hs]
    simp [totalMatched, hlen]
  · rw [hs]
    have := length_insertAll es []
    simpa using this

/-- Witness for C9's amended statement, at the duplicate-member document:
count 3 = three matches, reported counts as computed, 2 stored rows ≤ 3. -/
theorem c9_counts_forwarded_witness :
    (⟨⟨true, some dupEntries⟩, 3⟩ : TagfileProcessor.State).entry_count =
      totalMatched dupDoc ∧
    dupCounts = builtinRules.map
      (fun kr => (kr.1, (TagfileProcessor.matchedTags dupDoc kr.2).length)) ∧
    dupEntries.length ≤
      (⟨⟨true, some dupEntries⟩, 3⟩ : TagfileProcessor.State).entry_count :=
  c9_counts_forwarded dupDoc ⟨false, false⟩
    ⟨⟨true, some dupEntries⟩, 3⟩ dupCounts dupEntries rfl rfl

/-- C10: the default `get_filename` is not total: on a node with an
`anchorfile` child but no direct `filename` child and no `anchor` descendant
it raises (the code reads `tag.anchor.contents[0]` unconditionally once the
anchorfile guard passes) instead of returning a locator or omitting the
anchor part. -/
theorem c10_missing_anchor_raises (tag : Tag)
    (h1 : Tag.findDirect tag "filename" = none)
    (h2 : (Tag.findDirect tag "anchorfile").isSome = true)
    (h3 : Tag.findChild tag "anchor" = none) :
    ∃ msg, TagProcessor.get_filename tag = .error msg := by
  obtain ⟨afd, hafd⟩ := Option.isSome_iff_exists.mp h2
  obtain ⟨af, haf⟩ :=
    Option.isSome_iff_exists.mp (findChild_isSome_of_findDirect hafd)
  cases hth : af.text.head? with
  | none =>
    exact ⟨"IndexError",
      by simp [TagProcessor.get_filename, h1, h2, haf, hth]⟩
  | some afs =>
    exact ⟨"AttributeError",
      by simp [TagProcessor.get_filename, h1, h2, haf, hth, h3]⟩

/-- Witness for C10: a member with an `anchorfile` child and no `anchor`. -/
theorem c10_missing_anchor_raises_witness :
    ∃ msg, TagProcessor.get_filename anchorlessMember = .error msg :=
  c10_missing_anchor_raises anchorlessMember rfl rfl rfl
